import Mathlib

/-!
# Repository retention and lifecycle operations of the Humio API client

A shallow embedding of `api/repositories.go`: the repository snapshot, the
client calls issued through the injected transport, and the lifecycle
operations `Get`, `List`, `Create`, `Delete`, `UpdateUserGroup`,
`UpdateTimeBasedRetention`, `UpdateStorageBasedRetention`,
`UpdateIngestBasedRetention`, `UpdateDescription`, together with
`DefaultGroupEnum.ParseString`.

Modelling choices.

* `float64` is the IEEE 754 binary64 format, bit for bit: a sign, an eleven
  bit exponent field and a fifty-two bit fraction field. The comparisons
  `<`, `>`, `<=`, `==` follow IEEE 754: a NaN compares false with everything
  and the two zeros are equal.
* `int64` (`SpaceUsed`) is an `Int`; the code only compares it with `0`.
* The transport (`client.Query`, `client.Mutate`) is a parameter: a pair of
  state-passing functions over an arbitrary remote state. The embedding
  records every invocation, in order, in a call trace.
* An `error` is either a value handed back by the transport or a value
  built locally by `fmt.Errorf`; the two are never the same Go value.
-/

namespace Humio

/-! ## float64 -/

/-- An IEEE 754 binary64 value, by its three bit fields. -/
structure Float64 where
  sign : Bool
  expo : Fin 2048
  frac : Fin 4503599627370496
deriving DecidableEq, Repr

namespace Float64

/-- The exponent field is all ones and the fraction field is not zero. -/
def isNaN (x : Float64) : Bool :=
  x.expo.val == 2047 && x.frac.val != 0

/-- The magnitude bits read as a natural number; monotone in the absolute value. -/
def mag (x : Float64) : Nat :=
  x.expo.val * 4503599627370496 + x.frac.val

/-- An integer ordered like the real value of a value that is not a NaN
(both zeros give `0`). -/
def key (x : Float64) : Int :=
  if x.sign then - (x.mag : Int) else (x.mag : Int)

/-- Go `a < b` on float64. -/
def lt (a b : Float64) : Bool :=
  !a.isNaN && !b.isNaN && decide (a.key < b.key)

/-- Go `a > b` on float64. -/
def gt (a b : Float64) : Bool :=
  !a.isNaN && !b.isNaN && decide (b.key < a.key)

/-- Go `a <= b` on float64. -/
def le (a b : Float64) : Bool :=
  !a.isNaN && !b.isNaN && decide (a.key ≤ b.key)

/-- Go `a == b` on float64. -/
def eq (a b : Float64) : Bool :=
  !a.isNaN && !b.isNaN && decide (a.key = b.key)

/-- The constant `0` converted to float64 (positive zero). -/
def zero : Float64 := ⟨false, 0, 0⟩

/-- The value `10.0`. -/
def ten : Float64 := ⟨false, 1026, 1125899906842624⟩

/-- The value `30.0`. -/
def thirty : Float64 := ⟨false, 1027, 3940649673949184⟩

end Float64

/-! ## Data model -/

/-- Go `type Repository struct`. -/
structure Repository where
  ID : String
  Name : String
  Description : String
  RetentionDays : Float64
  IngestRetentionSizeGB : Float64
  StorageRetentionSizeGB : Float64
  SpaceUsed : Int
deriving DecidableEq, Repr

/-- Go `type RepoListItem struct`. -/
structure RepoListItem where
  ID : String
  Name : String
  SpaceUsed : Int
deriving DecidableEq, Repr

/-- Go `type DefaultGroupEnum string`: any string value, not only the three constants. -/
structure DefaultGroupEnum where
  val : String
deriving DecidableEq, Repr

def DefaultGroupEnumMember : DefaultGroupEnum := ⟨"Member"⟩
def DefaultGroupEnumAdmin : DefaultGroupEnum := ⟨"Admin"⟩
def DefaultGroupEnumEliminator : DefaultGroupEnum := ⟨"Eliminator"⟩

/-- Go `func (e DefaultGroupEnum) String() string` (renamed: `String` is the string
type here). -/
def DefaultGroupEnum.StringOf (e : DefaultGroupEnum) : String := e.val

/-! ## Errors -/

/-- An error returned by the transport; `text` is what `%+v` prints for it. -/
structure TransportError where
  text : String
deriving DecidableEq, Repr

/-- A Go `error` value as the operations see it. -/
inductive GoError
  | transport (e : TransportError)
  | errorf (msg : String)
deriving DecidableEq, Repr

/-- Go `err.Error()`. -/
def GoError.Error : GoError → String
  | .transport e => e.text
  | .errorf msg => msg

/-- The value of `fmt.Errorf("repository contains data and data deletion not allowed")`. -/
def dataDeletionNotAllowed : GoError :=
  .errorf "repository contains data and data deletion not allowed"

/-- The value of `fmt.Errorf("at least one group must be defined")`. -/
def atLeastOneGroup : GoError :=
  .errorf "at least one group must be defined"

/-- The value of `fmt.Errorf("%+v. Does the repo already exist?", graphqlErr)`. -/
def withHint (graphqlErr : TransportError) : GoError :=
  .errorf (graphqlErr.text ++ ". Does the repo already exist?")

/-- Go `return err` for an `err` that came from the transport (`nil` stays `nil`). -/
def liftErr (err : Option TransportError) : Option GoError :=
  err.map GoError.transport

/-! ## Calls and the transport -/

/-- A value stored in the Go `variables` map (named `vars` here). -/
inductive Value
  | string (s : String)
  | float (f : Float64)
  | nilFloat
  | groups (gs : List DefaultGroupEnum)
deriving DecidableEq, Repr

/-- The Go map, as an association list in the order of the map literal. -/
abbrev Variables := List (String × Value)

/-- Go map assignment at key `k`. -/
def Variables.set : Variables → String → Value → Variables
  | [], k, v => [(k, v)]
  | (k', v') :: rest, k, v =>
    if k' = k then (k, v) :: rest else (k', v') :: Variables.set rest k v

/-- Go map lookup at key `k`. -/
def Variables.get : Variables → String → Option Value
  | [], _ => none
  | (k', v') :: rest, k => if k' = k then some v' else Variables.get rest k

inductive CallKind
  | query
  | mutation
deriving DecidableEq, Repr

/-- One invocation of the transport: which method, the `graphql` tag of the
requested field, and the variables map. -/
structure Call where
  kind : CallKind
  field : String
  vars : Variables
deriving DecidableEq, Repr

/-- What a query decodes into the fields the operations read. -/
structure QueryData where
  Repository : Repository
  Repositories : List RepoListItem
deriving DecidableEq, Repr

/-- The injected transport over a remote state `σ`. -/
structure Client (σ : Type) where
  query : Call → σ → (QueryData × Option TransportError) × σ
  mutate : Call → σ → Option TransportError × σ

/-- The remote state together with the calls made so far. -/
structure World (σ : Type) where
  remote : σ
  trace : List Call

variable {σ : Type}

/-- Go `r.client.Query(&q, ...)`, recorded in the trace. -/
def Client.Query (c : Client σ) (field : String) (vars : Variables) (w : World σ) :
    (QueryData × Option TransportError) × World σ :=
  let call : Call := ⟨.query, field, vars⟩
  let r := c.query call w.remote
  (r.1, ⟨r.2, w.trace ++ [call]⟩)

/-- Go `r.client.Mutate(&m, ...)`, recorded in the trace. -/
def Client.Mutate (c : Client σ) (field : String) (vars : Variables) (w : World σ) :
    Option TransportError × World σ :=
  let call : Call := ⟨.mutation, field, vars⟩
  let r := c.mutate call w.remote
  (r.1, ⟨r.2, w.trace ++ [call]⟩)

/-- The calls made between world `w` and a later world `w2`. -/
def issued (w w2 : World σ) : List Call :=
  w2.trace.drop w.trace.length

/-! ## Operations -/

/-- Go `func (r *Repositories) Get(name string) (Repository, error)`. -/
def Repositories.Get (c : Client σ) (name : String) (w : World σ) :
    (Repository × Option GoError) × World σ :=
  let vars : Variables := [("name", .string name)]
  let r := c.Query "repository(name: $name)" vars w
  match r.1.2 with
  | some graphqlErr => ((r.1.1.Repository, some (withHint graphqlErr)), r.2)
  | none => ((r.1.1.Repository, none), r.2)

/-- Go `func (r *Repositories) List() ([]RepoListItem, error)` (renamed: `List` is the list type here). -/
def Repositories.ListRepositories (c : Client σ) (w : World σ) :
    (List RepoListItem × Option GoError) × World σ :=
  let r := c.Query "repositories" [] w
  ((r.1.1.Repositories, liftErr r.1.2), r.2)

/-- Go `func (r *Repositories) Create(name string) error`. -/
def Repositories.Create (c : Client σ) (name : String) (w : World σ) : Option GoError × World σ :=
  let vars : Variables := [("name", .string name)]
  let r := c.Mutate "createRepository(name: $name)" vars w
  match r.1 with
  | some graphqlErr => (some (withHint graphqlErr), r.2)
  | none => (none, r.2)

/-- Go `func (r *Repositories) Delete(name, reason string, allowDataDeletion bool) error`. -/
def Repositories.Delete (c : Client σ) (name reason : String) (allowDataDeletion : Bool) (w : World σ) :
    Option GoError × World σ :=
  let g := Repositories.Get c name w
  let existingRepo := g.1.1
  match g.1.2 with
  | some err => (some err, g.2)
  | none =>
    let safeToDelete := allowDataDeletion || decide (existingRepo.SpaceUsed = 0)
    if !safeToDelete then
      (some dataDeletionNotAllowed, g.2)
    else
      let vars : Variables := [("name", .string name), ("reason", .string reason)]
      let m := c.Mutate "deleteSearchDomain(name: $name, deleteMessage: $reason)" vars g.2
      (liftErr m.1, m.2)

/-- Go `func (r *Repositories) UpdateUserGroup(name, username string, groups ...DefaultGroupEnum) error`. -/
def Repositories.UpdateUserGroup (c : Client σ) (name username : String)
    (groups : List DefaultGroupEnum) (w : World σ) : Option GoError × World σ :=
  if groups.length = 0 then
    (some atLeastOneGroup, w)
  else
    let vars : Variables :=
      [("name", .string name), ("username", .string username), ("groups", .groups groups)]
    let m := c.Mutate
      "updateDefaultGroupMemberships(input: \x7bviewName: $name, userName: $username, groups: $groups\x7d)"
      vars w
    (liftErr m.1, m.2)

/-- Go `func (r *Repositories) UpdateTimeBasedRetention(name string, retentionInDays float64,
allowDataDeletion bool) error`. -/
def Repositories.UpdateTimeBasedRetention (c : Client σ) (name : String)
    (retentionInDays : Float64) (allowDataDeletion : Bool) (w : World σ) :
    Option GoError × World σ :=
  let g := Repositories.Get c name w
  let existingRepo := g.1.1
  match g.1.2 with
  | some err => (some err, g.2)
  | none =>
    let safeToDelete := allowDataDeletion || decide (existingRepo.SpaceUsed = 0)
    let field := "updateRetention(repositoryName: $name, timeBasedRetention: $retentionInDays)"
    let vars : Variables := [("name", .string name), ("retentionInDays", .nilFloat)]
    if retentionInDays.gt Float64.zero then
      if retentionInDays.lt existingRepo.RetentionDays
          || existingRepo.RetentionDays.eq Float64.zero then
        if !safeToDelete then
          (some dataDeletionNotAllowed, g.2)
        else
          let m := c.Mutate field (vars.set "retentionInDays" (.float retentionInDays)) g.2
          (liftErr m.1, m.2)
      else
        let m := c.Mutate field (vars.set "retentionInDays" (.float retentionInDays)) g.2
        (liftErr m.1, m.2)
    else
      let m := c.Mutate field vars g.2
      (liftErr m.1, m.2)

/-- Go `func (r *Repositories) UpdateStorageBasedRetention(name string, storageInGB float64,
allowDataDeletion bool) error`. -/
def Repositories.UpdateStorageBasedRetention (c : Client σ) (name : String)
    (storageInGB : Float64) (allowDataDeletion : Bool) (w : World σ) :
    Option GoError × World σ :=
  let g := Repositories.Get c name w
  let existingRepo := g.1.1
  match g.1.2 with
  | some err => (some err, g.2)
  | none =>
    let safeToDelete := allowDataDeletion || decide (existingRepo.SpaceUsed = 0)
    let field := "updateRetention(repositoryName: $name, storageSizeBasedRetention: $storageInGB)"
    let vars : Variables := [("name", .string name), ("storageInGB", .nilFloat)]
    if storageInGB.gt Float64.zero then
      if storageInGB.lt existingRepo.StorageRetentionSizeGB
          || existingRepo.StorageRetentionSizeGB.eq Float64.zero then
        if !safeToDelete then
          (some dataDeletionNotAllowed, g.2)
        else
          let m := c.Mutate field (vars.set "storageInGB" (.float storageInGB)) g.2
          (liftErr m.1, m.2)
      else
        let m := c.Mutate field (vars.set "storageInGB" (.float storageInGB)) g.2
        (liftErr m.1, m.2)
    else
      let m := c.Mutate field vars g.2
      (liftErr m.1, m.2)

/-- Go `func (r *Repositories) UpdateIngestBasedRetention(name string, ingestInGB float64,
allowDataDeletion bool) error`. -/
def Repositories.UpdateIngestBasedRetention (c : Client σ) (name : String)
    (ingestInGB : Float64) (allowDataDeletion : Bool) (w : World σ) :
    Option GoError × World σ :=
  let g := Repositories.Get c name w
  let existingRepo := g.1.1
  match g.1.2 with
  | some err => (some err, g.2)
  | none =>
    let safeToDelete := allowDataDeletion || decide (existingRepo.SpaceUsed = 0)
    let field := "updateRetention(repositoryName: $name, ingestSizeBasedRetention: $ingestInGB)"
    let vars : Variables := [("name", .string name), ("ingestInGB", .nilFloat)]
    if ingestInGB.gt Float64.zero then
      if ingestInGB.lt existingRepo.IngestRetentionSizeGB
          || existingRepo.IngestRetentionSizeGB.eq Float64.zero then
        if !safeToDelete then
          (some dataDeletionNotAllowed, g.2)
        else
          let m := c.Mutate field (vars.set "ingestInGB" (.float ingestInGB)) g.2
          (liftErr m.1, m.2)
      else
        let m := c.Mutate field (vars.set "ingestInGB" (.float ingestInGB)) g.2
        (liftErr m.1, m.2)
    else
      let m := c.Mutate field vars g.2
      (liftErr m.1, m.2)

/-- Go `func (r *Repositories) UpdateDescription(name, description string) error`. -/
def Repositories.UpdateDescription (c : Client σ) (name description : String) (w : World σ) :
    Option GoError × World σ :=
  let vars : Variables := [("name", .string name), ("description", .string description)]
  let m := c.Mutate
    "updateDescriptionForSearchDomain(name: $name, newDescription: $description)" vars w
  (liftErr m.1, m.2)

/-! ## The calls the operations build, named for the statements below -/

/-- The query issued by `Get`. -/
def getCall (name : String) : Call :=
  ⟨.query, "repository(name: $name)", [("name", .string name)]⟩

/-- The mutation issued by `UpdateTimeBasedRetention`; `v` is the retention variable. -/
def timeCall (name : String) (v : Value) : Call :=
  ⟨.mutation, "updateRetention(repositoryName: $name, timeBasedRetention: $retentionInDays)",
    [("name", .string name), ("retentionInDays", v)]⟩

/-- The mutation issued by `UpdateStorageBasedRetention`. -/
def storageCall (name : String) (v : Value) : Call :=
  ⟨.mutation, "updateRetention(repositoryName: $name, storageSizeBasedRetention: $storageInGB)",
    [("name", .string name), ("storageInGB", v)]⟩

/-- The mutation issued by `UpdateIngestBasedRetention`. -/
def ingestCall (name : String) (v : Value) : Call :=
  ⟨.mutation, "updateRetention(repositoryName: $name, ingestSizeBasedRetention: $ingestInGB)",
    [("name", .string name), ("ingestInGB", v)]⟩

/-- The mutation issued by `Delete`. -/
def deleteCall (name reason : String) : Call :=
  ⟨.mutation, "deleteSearchDomain(name: $name, deleteMessage: $reason)",
    [("name", .string name), ("reason", .string reason)]⟩

/-- The outcome of handing mutation `call` to the transport in world `w`: the
error it returns, and the world after it. -/
def mutated (c : Client σ) (call : Call) (w : World σ) : Option GoError × World σ :=
  (liftErr (c.mutate call w.remote).1, ⟨(c.mutate call w.remote).2, w.trace ++ [call]⟩)

/-! ## Concrete transports used to exercise the statements -/

/-- A transport over a remote that holds one repository: every query decodes
`repo`, every mutation succeeds. -/
def snapshotClient (repo : Repository) : Client Unit where
  query := fun _ s => ((⟨repo, [⟨repo.ID, repo.Name, repo.SpaceUsed⟩]⟩, none), s)
  mutate := fun _ s => (none, s)

/-- A transport on which every call fails with the error text `msg`. -/
def failingClient (msg : String) : Client Unit where
  query := fun _ s => ((⟨⟨"", "", "", Float64.zero, Float64.zero, Float64.zero, 0⟩, []⟩,
    some ⟨msg⟩), s)
  mutate := fun _ s => (some ⟨msg⟩, s)

/-- A transport whose queries decode `repo` and whose mutations fail with `msg`. -/
def readOnlyClient (repo : Repository) (msg : String) : Client Unit where
  query := fun _ s => ((⟨repo, [⟨repo.ID, repo.Name, repo.SpaceUsed⟩]⟩, none), s)
  mutate := fun _ s => (some ⟨msg⟩, s)

/-- Repository `logs`: thirty days of retention, 500 bytes stored. -/
def logsRepo : Repository :=
  ⟨"id-logs", "logs", "", Float64.thirty, Float64.zero, Float64.zero, 500⟩

/-- Repository `empty`: nothing configured, nothing stored. -/
def emptyRepo : Repository :=
  ⟨"id-empty", "empty", "", Float64.zero, Float64.zero, Float64.zero, 0⟩

/-- The world before any call. -/
def start : World Unit := ⟨(), []⟩

/-- The mutation issued by `UpdateUserGroup`. -/
def groupCall (name username : String) (groups : List DefaultGroupEnum) : Call :=
  ⟨.mutation,
    "updateDefaultGroupMemberships(input: \x7bviewName: $name, userName: $username, groups: $groups\x7d)",
    [("name", .string name), ("username", .string username), ("groups", .groups groups)]⟩

/-- The mutation issued by `UpdateDescription`. -/
def descriptionCall (name description : String) : Call :=
  ⟨.mutation, "updateDescriptionForSearchDomain(name: $name, newDescription: $description)",
    [("name", .string name), ("description", .string description)]⟩

/-- The mutation issued by `Create`. -/
def createCall (name : String) : Call :=
  ⟨.mutation, "createRepository(name: $name)", [("name", .string name)]⟩

/-- The query issued by `List`. -/
def listCall : Call :=
  ⟨.query, "repositories", []⟩

/-- Error propagation of one guarded operation whose run from world `w` is `r`.
If `Get` failed with `e`, the run returns exactly `e` and its only call is the
snapshot query. If `Get` succeeded, either the run is the guard rejection with
the snapshot query as its only call, or the run made one more call, a mutation,
and returns that mutation's error unchanged (`nil` exactly when the mutation
returned `nil`). -/
def Propagates (c : Client σ) (name : String) (w : World σ)
    (r : Option GoError × World σ) : Prop :=
  (∀ repo e w1, Repositories.Get c name w = ((repo, some e), w1) →
    r.1 = some e ∧ issued w r.2 = [getCall name]) ∧
  (∀ repo w1, Repositories.Get c name w = ((repo, none), w1) →
    (r.1 = some dataDeletionNotAllowed ∧ issued w r.2 = [getCall name]) ∨
    ∃ call, call.kind = CallKind.mutation ∧ issued w r.2 = [getCall name, call] ∧
      (∀ te, (c.mutate call w1.remote).1 = some te → r.1 = some (GoError.transport te)) ∧
      (r.1 = none ↔ (c.mutate call w1.remote).1 = none))

/-- What a caller observes of the decision taken in one run of a retention
update: a rejection with its error text, or an approval with the value the
retention variable has in the mutation that was sent. -/
inductive Outcome
  | rejected (text : String)
  | approved (param : Option Value)
deriving DecidableEq, Repr

/-- Read the decision off a run `r` that started in world `w`; `key` is the name
of the retention variable of the operation. No mutation in the run: the error
returned, if any, is the rejection. One mutation: approved, with the value of
`key` in its variables. -/
def outcome (key : String) (w : World σ) (r : Option GoError × World σ) : Option Outcome :=
  match (issued w r.2).filter (fun call => decide (call.kind = CallKind.mutation)) with
  | [] => r.1.map (fun e => Outcome.rejected e.Error)
  | [m] => some (Outcome.approved (m.vars.get key))
  | _ => none

/-- Repository `sized`: a storage limit of thirty GB, 500 bytes stored. -/
def sizedRepo : Repository :=
  ⟨"id-sized", "sized", "", Float64.zero, Float64.zero, Float64.thirty, 500⟩

/-- The remote effect of updateDescriptionForSearchDomain: the description of
every repository called `name` becomes `text`; nothing else changes. -/
def setDescription (name text : String) (s : List Repository) : List Repository :=
  s.map (fun r =>
    if r.Name = name then
      ⟨r.ID, r.Name, text, r.RetentionDays, r.IngestRetentionSizeGB, r.StorageRetentionSizeGB,
        r.SpaceUsed⟩
    else r)

/-- The fields of a remote state that retention and the guard are about. -/
def retentionView (s : List Repository) : List (String × Float64 × Float64 × Float64 × Int) :=
  s.map (fun r =>
    (r.Name, r.RetentionDays, r.IngestRetentionSizeGB, r.StorageRetentionSizeGB, r.SpaceUsed))

/-- A remote whose state is its list of repositories and in which the
updateDescriptionForSearchDomain mutation sets the description of the named
repository (failing, without effect, when no repository has that name). Other
mutations are accepted without effect; a query decodes the named repository. -/
def descriptionRemote : Client (List Repository) where
  query := fun call s =>
    match call.vars.get "name" with
    | some (.string n) =>
      match s.find? (fun r => decide (r.Name = n)) with
      | some r => ((⟨r, s.map (fun x => ⟨x.ID, x.Name, x.SpaceUsed⟩)⟩, none), s)
      | none => ((⟨⟨"", "", "", Float64.zero, Float64.zero, Float64.zero, 0⟩, []⟩,
          some ⟨"not found"⟩), s)
    | _ => ((⟨⟨"", "", "", Float64.zero, Float64.zero, Float64.zero, 0⟩,
        s.map (fun x => ⟨x.ID, x.Name, x.SpaceUsed⟩)⟩, none), s)
  mutate := fun call s =>
    if call.field = "updateDescriptionForSearchDomain(name: $name, newDescription: $description)"
    then
      match call.vars.get "name", call.vars.get "description" with
      | some (.string n), some (.string d) =>
        if s.any (fun r => decide (r.Name = n)) then (none, setDescription n d s)
        else (some ⟨"not found"⟩, s)
      | _, _ => (some ⟨"bad request"⟩, s)
    else (none, s)

/-! ## Letter case (Go standard library) and `ParseString` -/

/-- Go `unicode.ToLower`. On an ASCII rune (`r <= MaxASCII`) the library adds
`'a' - 'A'` to the runes `'A'` to `'Z'` and returns the others as they are, which
is `Char.toLower`. Outside ASCII it looks the rune up in the Unicode case tables,
which are not part of this repository: `table` stands for that lookup. -/
def unicodeToLower (table : Char → Char) (r : Char) : Char :=
  if r.toNat ≤ 127 then r.toLower else table r

/-- Go `strings.ToLower`: every rune of `s` through `unicode.ToLower` (the
library's fast path for ASCII-only strings computes the same string). -/
def stringsToLower (table : Char → Char) (s : String) : String :=
  String.mk (s.data.map (unicodeToLower table))

/-- Go `func (e *DefaultGroupEnum) ParseString(s string) bool`: the new value of
the receiver and the returned flag. -/
def DefaultGroupEnum.ParseString (table : Char → Char) (e : DefaultGroupEnum) (s : String) :
    DefaultGroupEnum × Bool :=
  if stringsToLower table s = "member" then (DefaultGroupEnumMember, true)
  else if stringsToLower table s = "admin" then (DefaultGroupEnumAdmin, true)
  else if stringsToLower table s = "eliminator" then (DefaultGroupEnumEliminator, true)
  else (e, false)

/-- The string `s` with the letter at each position `i` in upper case when
`up i` holds and in lower case otherwise: every way of writing `s` in another
letter case is of this form. -/
def recase (up : Nat → Bool) (s : String) : String :=
  String.mk (s.data.enum.map (fun p => if up p.1 then p.2.toUpper else p.2.toLower))

/-- A stand-in for the Unicode case table that maps LATIN CAPITAL LETTER I WITH
DOT ABOVE (U+0130) to `i`, as the Unicode data does, and leaves the rest. -/
def dottedTable (r : Char) : Char :=
  if r.toNat = 304 then 'i' else r

/-- A run after a successful snapshot read that was approved: the operation
handed exactly `call` to the transport after the snapshot query and returned
what the transport returned for it. -/
def ApprovedWith (c : Client σ) (name : String) (w w1 : World σ) (call : Call)
    (r : Option GoError × World σ) : Prop :=
  r = mutated c call w1 ∧ r.1 ≠ some dataDeletionNotAllowed ∧
    issued w r.2 = [getCall name, call]

/-! ## Basic facts -/

theorem Float64.gt_false_of_le_zero (v : Float64) (h : v.le Float64.zero = true) :
    v.gt Float64.zero = false := by
  simp only [Float64.le, Float64.gt, Bool.and_eq_true, decide_eq_true_eq] at *
  obtain ⟨hn, hk⟩ := h
  simp only [hn, Bool.true_and, decide_eq_false_iff_not, not_lt]
  exact hk

theorem issued_append (w w2 : World σ) (l : List Call) (h : w2.trace = w.trace ++ l) :
    issued w w2 = l := by
  simp [issued, h]

theorem Get_trace (c : Client σ) (name : String) (w : World σ) :
    (Repositories.Get c name w).2.trace = w.trace ++ [getCall name] := by
  unfold Repositories.Get Client.Query getCall
  dsimp only
  split <;> rfl

theorem UpdateTimeBasedRetention_of_Get_ok (c : Client σ) (name : String) (v : Float64)
    (allow : Bool) (w w1 : World σ) (repo : Repository)
    (hget : Repositories.Get c name w = ((repo, none), w1)) :
    Repositories.UpdateTimeBasedRetention c name v allow w =
      if v.gt Float64.zero then
        if (v.lt repo.RetentionDays || repo.RetentionDays.eq Float64.zero)
            && !(allow || decide (repo.SpaceUsed = 0)) then
          (some dataDeletionNotAllowed, w1)
        else mutated c (timeCall name (.float v)) w1
      else mutated c (timeCall name .nilFloat) w1 := by
  unfold Repositories.UpdateTimeBasedRetention
  simp only [hget, mutated, timeCall, Client.Mutate, Variables.set]
  by_cases h1 : v.gt Float64.zero = true
  · by_cases h2 : (v.lt repo.RetentionDays || repo.RetentionDays.eq Float64.zero) = true
    · by_cases h3 : (allow || decide (repo.SpaceUsed = 0)) = true
      · simp [h1, h2, h3]
      · simp only [Bool.not_eq_true] at h3
        simp [h1, h2, h3]
    · simp only [Bool.not_eq_true] at h2
      simp [h1, h2]
  · simp only [Bool.not_eq_true] at h1
    simp [h1]

theorem UpdateStorageBasedRetention_of_Get_ok (c : Client σ) (name : String) (v : Float64)
    (allow : Bool) (w w1 : World σ) (repo : Repository)
    (hget : Repositories.Get c name w = ((repo, none), w1)) :
    Repositories.UpdateStorageBasedRetention c name v allow w =
      if v.gt Float64.zero then
        if (v.lt repo.StorageRetentionSizeGB || repo.StorageRetentionSizeGB.eq Float64.zero)
            && !(allow || decide (repo.SpaceUsed = 0)) then
          (some dataDeletionNotAllowed, w1)
        else mutated c (storageCall name (.float v)) w1
      else mutated c (storageCall name .nilFloat) w1 := by
  unfold Repositories.UpdateStorageBasedRetention
  simp only [hget, mutated, storageCall, Client.Mutate, Variables.set]
  by_cases h1 : v.gt Float64.zero = true
  · by_cases h2 : (v.lt repo.StorageRetentionSizeGB || repo.StorageRetentionSizeGB.eq Float64.zero) = true
    · by_cases h3 : (allow || decide (repo.SpaceUsed = 0)) = true
      · simp [h1, h2, h3]
      · simp only [Bool.not_eq_true] at h3
        simp [h1, h2, h3]
    · simp only [Bool.not_eq_true] at h2
      simp [h1, h2]
  · simp only [Bool.not_eq_true] at h1
    simp [h1]

theorem UpdateIngestBasedRetention_of_Get_ok (c : Client σ) (name : String) (v : Float64)
    (allow : Bool) (w w1 : World σ) (repo : Repository)
    (hget : Repositories.Get c name w = ((repo, none), w1)) :
    Repositories.UpdateIngestBasedRetention c name v allow w =
      if v.gt Float64.zero then
        if (v.lt repo.IngestRetentionSizeGB || repo.IngestRetentionSizeGB.eq Float64.zero)
            && !(allow || decide (repo.SpaceUsed = 0)) then
          (some dataDeletionNotAllowed, w1)
        else mutated c (ingestCall name (.float v)) w1
      else mutated c (ingestCall name .nilFloat) w1 := by
  unfold Repositories.UpdateIngestBasedRetention
  simp only [hget, mutated, ingestCall, Client.Mutate, Variables.set]
  by_cases h1 : v.gt Float64.zero = true
  · by_cases h2 : (v.lt repo.IngestRetentionSizeGB || repo.IngestRetentionSizeGB.eq Float64.zero) = true
    · by_cases h3 : (allow || decide (repo.SpaceUsed = 0)) = true
      · simp [h1, h2, h3]
      · simp only [Bool.not_eq_true] at h3
        simp [h1, h2, h3]
    · simp only [Bool.not_eq_true] at h2
      simp [h1, h2]
  · simp only [Bool.not_eq_true] at h1
    simp [h1]

theorem Delete_of_Get_ok (c : Client σ) (name reason : String)
    (allow : Bool) (w w1 : World σ) (repo : Repository)
    (hget : Repositories.Get c name w = ((repo, none), w1)) :
    Repositories.Delete c name reason allow w =
      if !(allow || decide (repo.SpaceUsed = 0)) then (some dataDeletionNotAllowed, w1)
      else mutated c (deleteCall name reason) w1 := by
  unfold Repositories.Delete
  simp only [hget, mutated, deleteCall, Client.Mutate]

theorem Delete_of_Get_err (c : Client σ) (name : String) (reason : String)
    (allow : Bool) (w w1 : World σ) (repo : Repository) (e : GoError)
    (hget : Repositories.Get c name w = ((repo, some e), w1)) :
    Repositories.Delete c name reason allow w = (some e, w1) := by
  unfold Repositories.Delete
  simp only [hget]

theorem UpdateTimeBasedRetention_of_Get_err (c : Client σ) (name : String) (v : Float64)
    (allow : Bool) (w w1 : World σ) (repo : Repository) (e : GoError)
    (hget : Repositories.Get c name w = ((repo, some e), w1)) :
    Repositories.UpdateTimeBasedRetention c name v allow w = (some e, w1) := by
  unfold Repositories.UpdateTimeBasedRetention
  simp only [hget]

theorem UpdateStorageBasedRetention_of_Get_err (c : Client σ) (name : String) (v : Float64)
    (allow : Bool) (w w1 : World σ) (repo : Repository) (e : GoError)
    (hget : Repositories.Get c name w = ((repo, some e), w1)) :
    Repositories.UpdateStorageBasedRetention c name v allow w = (some e, w1) := by
  unfold Repositories.UpdateStorageBasedRetention
  simp only [hget]

theorem UpdateIngestBasedRetention_of_Get_err (c : Client σ) (name : String) (v : Float64)
    (allow : Bool) (w w1 : World σ) (repo : Repository) (e : GoError)
    (hget : Repositories.Get c name w = ((repo, some e), w1)) :
    Repositories.UpdateIngestBasedRetention c name v allow w = (some e, w1) := by
  unfold Repositories.UpdateIngestBasedRetention
  simp only [hget]

theorem liftErr_ne_errorf (x : Option TransportError) (msg : String) :
    liftErr x ≠ some (GoError.errorf msg) := by
  cases x <;> simp [liftErr]

theorem Get_cases (c : Client σ) (name : String) (w : World σ) :
    ∃ repo w1, w1.trace = w.trace ++ [getCall name] ∧
      (Repositories.Get c name w = ((repo, none), w1) ∨
        ∃ e, Repositories.Get c name w = ((repo, some e), w1)) := by
  refine ⟨(Repositories.Get c name w).1.1, (Repositories.Get c name w).2,
    Get_trace c name w, ?_⟩
  cases h : (Repositories.Get c name w).1.2 with
  | none => exact Or.inl (by rw [← h])
  | some e => exact Or.inr ⟨e, by rw [← h]⟩

theorem issued_mutated (c : Client σ) (call g : Call) (w w1 : World σ)
    (h : w1.trace = w.trace ++ [g]) :
    issued w (mutated c call w1).2 = [g, call] := by
  apply issued_append
  simp [mutated, h]

theorem trace_of_Get_eq (c : Client σ) (name : String) (w w1 : World σ)
    (x : Repository × Option GoError) (hget : Repositories.Get c name w = (x, w1)) :
    w1.trace = w.trace ++ [getCall name] := by
  have := Get_trace c name w
  rw [hget] at this
  exact this

theorem approvedWith_mutated (c : Client σ) (name : String) (w w1 : World σ) (call : Call)
    (h : w1.trace = w.trace ++ [getCall name]) :
    ApprovedWith c name w w1 call (mutated c call w1) :=
  ⟨rfl, liftErr_ne_errorf _ _, issued_mutated c call _ w w1 h⟩

/-! ## Claims -/

/-- C1: after a successful `Get` (snapshot `repo`) and for a proposed value
`retentionInDays > 0`, `UpdateTimeBasedRetention` returns the error
"repository contains data and data deletion not allowed" and issues no mutation
if and only if (`retentionInDays < repo.RetentionDays` or `repo.RetentionDays == 0`)
and `repo.SpaceUsed != 0` and `allowDataDeletion == false`; in that case nothing is
sent after the snapshot query. In every other case the calls of the run are the
snapshot query followed by the updateRetention mutation whose `retentionInDays`
variable is the explicit proposed value, and the operation returns what that
mutation returned. -/
theorem C1_time_retention_guard (c : Client σ) (name : String) (retentionInDays : Float64)
    (allowDataDeletion : Bool) (w w1 : World σ) (repo : Repository)
    (hget : Repositories.Get c name w = ((repo, none), w1))
    (hpos : retentionInDays.gt Float64.zero = true) :
    (((Repositories.UpdateTimeBasedRetention c name retentionInDays allowDataDeletion w).1
          = some dataDeletionNotAllowed ∧
        ∀ call ∈ issued w
          (Repositories.UpdateTimeBasedRetention c name retentionInDays allowDataDeletion w).2,
          call.kind ≠ CallKind.mutation) ↔
      ((retentionInDays.lt repo.RetentionDays = true ∨
          repo.RetentionDays.eq Float64.zero = true) ∧
        repo.SpaceUsed ≠ 0 ∧ allowDataDeletion = false)) ∧
    (¬ ((retentionInDays.lt repo.RetentionDays = true ∨
          repo.RetentionDays.eq Float64.zero = true) ∧
        repo.SpaceUsed ≠ 0 ∧ allowDataDeletion = false) →
      issued w (Repositories.UpdateTimeBasedRetention c name retentionInDays allowDataDeletion w).2
          = [getCall name, timeCall name (.float retentionInDays)] ∧
        (timeCall name (.float retentionInDays)).vars.get "retentionInDays"
          = some (.float retentionInDays) ∧
        Repositories.UpdateTimeBasedRetention c name retentionInDays allowDataDeletion w
          = mutated c (timeCall name (.float retentionInDays)) w1) := by
  have htr : w1.trace = w.trace ++ [getCall name] := by
    have := Get_trace c name w
    rw [hget] at this
    exact this
  rw [UpdateTimeBasedRetention_of_Get_ok c name retentionInDays allowDataDeletion w w1 repo hget]
  simp only [hpos, if_true]
  by_cases hc : (retentionInDays.lt repo.RetentionDays = true ∨
      repo.RetentionDays.eq Float64.zero = true) ∧
      repo.SpaceUsed ≠ 0 ∧ allowDataDeletion = false
  · have hb : ((retentionInDays.lt repo.RetentionDays || repo.RetentionDays.eq Float64.zero)
        && !(allowDataDeletion || decide (repo.SpaceUsed = 0))) = true := by
      obtain ⟨h1, h2, h3⟩ := hc
      simp [h1, h2, h3]
    simp only [hb, if_true]
    refine ⟨⟨fun _ => hc, fun _ => ⟨trivial, ?_⟩⟩, fun h => absurd hc h⟩
    intro call hcall
    rw [issued_append w w1 _ htr] at hcall
    simp only [List.mem_singleton] at hcall
    subst hcall
    simp [getCall]
  · have hb : ((retentionInDays.lt repo.RetentionDays || repo.RetentionDays.eq Float64.zero)
        && !(allowDataDeletion || decide (repo.SpaceUsed = 0))) = false := by
      by_contra hne
      simp only [Bool.not_eq_false, Bool.and_eq_true, Bool.or_eq_true, Bool.not_eq_true',
        Bool.or_eq_false_iff, decide_eq_false_iff_not] at hne
      exact hc ⟨hne.1, hne.2.2, hne.2.1⟩
    simp only [hb, Bool.false_eq_true, if_false]
    have hiss : issued w (mutated c (timeCall name (.float retentionInDays)) w1).2
        = [getCall name, timeCall name (.float retentionInDays)] := by
      apply issued_append
      simp [mutated, htr]
    refine ⟨⟨fun h => ?_, fun h => absurd h hc⟩, fun _ => ⟨hiss, ?_, trivial⟩⟩
    · exfalso
      have := h.2 (timeCall name (.float retentionInDays)) (by rw [hiss]; simp)
      exact this rfl
    · simp [timeCall, Variables.get]

/-- C1 at scenario A: repository `logs` (thirty days, 500 bytes), proposal of ten
days without the override: rejected. -/
theorem C1_time_retention_guard_witness :
    Repositories.Get (snapshotClient logsRepo) "logs" start
        = ((logsRepo, none), ⟨(), [getCall "logs"]⟩) ∧
      Float64.ten.gt Float64.zero = true ∧
      (Repositories.UpdateTimeBasedRetention (snapshotClient logsRepo) "logs" Float64.ten false
        start).1 = some dataDeletionNotAllowed :=
  ⟨rfl, by decide,
    (((C1_time_retention_guard (snapshotClient logsRepo) "logs" Float64.ten false start
      ⟨(), [getCall "logs"]⟩ logsRepo rfl (by decide)).1).2
      ⟨Or.inl (by decide), by decide, rfl⟩).1⟩

/-- C2: after a successful `Get` and for a proposed value `v <= 0`, whatever the
snapshot and the `allowDataDeletion` flag, each of `UpdateTimeBasedRetention`,
`UpdateStorageBasedRetention` and `UpdateIngestBasedRetention` is not rejected: it
issues its updateRetention mutation after the snapshot query and returns that
mutation's result, and the retention variable of the call is the nil
`*graphql.Float`, not an explicit value. -/
theorem C2_non_positive_clears (c : Client σ) (name : String) (v : Float64)
    (allowDataDeletion : Bool) (w w1 : World σ) (repo : Repository)
    (hget : Repositories.Get c name w = ((repo, none), w1))
    (hle : v.le Float64.zero = true) :
    (ApprovedWith c name w w1 (timeCall name .nilFloat)
        (Repositories.UpdateTimeBasedRetention c name v allowDataDeletion w) ∧
      (timeCall name .nilFloat).vars.get "retentionInDays" = some .nilFloat) ∧
    (ApprovedWith c name w w1 (storageCall name .nilFloat)
        (Repositories.UpdateStorageBasedRetention c name v allowDataDeletion w) ∧
      (storageCall name .nilFloat).vars.get "storageInGB" = some .nilFloat) ∧
    (ApprovedWith c name w w1 (ingestCall name .nilFloat)
        (Repositories.UpdateIngestBasedRetention c name v allowDataDeletion w) ∧
      (ingestCall name .nilFloat).vars.get "ingestInGB" = some .nilFloat) := by
  have hgt := Float64.gt_false_of_le_zero v hle
  have htr := trace_of_Get_eq c name w w1 _ hget
  rw [UpdateTimeBasedRetention_of_Get_ok c name v allowDataDeletion w w1 repo hget,
    UpdateStorageBasedRetention_of_Get_ok c name v allowDataDeletion w w1 repo hget,
    UpdateIngestBasedRetention_of_Get_ok c name v allowDataDeletion w w1 repo hget]
  simp only [hgt, Bool.false_eq_true, if_false]
  exact ⟨⟨approvedWith_mutated c name w w1 _ htr, by simp [timeCall, Variables.get]⟩,
    ⟨approvedWith_mutated c name w w1 _ htr, by simp [storageCall, Variables.get]⟩,
    ⟨approvedWith_mutated c name w w1 _ htr, by simp [ingestCall, Variables.get]⟩⟩

/-- C2 on repository `logs` (500 bytes stored), proposal `0`, no override: the
time-based update sends the nil retention variable. -/
theorem C2_non_positive_clears_witness :
    Repositories.Get (snapshotClient logsRepo) "logs" start
        = ((logsRepo, none), ⟨(), [getCall "logs"]⟩) ∧
      Float64.zero.le Float64.zero = true ∧
      issued start (Repositories.UpdateTimeBasedRetention (snapshotClient logsRepo) "logs"
        Float64.zero false start).2 = [getCall "logs", timeCall "logs" .nilFloat] :=
  ⟨rfl, by decide,
    (C2_non_positive_clears (snapshotClient logsRepo) "logs" Float64.zero false start
      ⟨(), [getCall "logs"]⟩ logsRepo rfl (by decide)).1.1.2.2⟩

/-- C3: after a successful `Get` (snapshot `repo`), `Delete` issues the
deleteSearchDomain mutation, carrying `name` and `reason`, exactly when
`allowDataDeletion` is true or `repo.SpaceUsed == 0`, and then returns that
mutation's result; otherwise it returns the error "repository contains data and
data deletion not allowed" and the only call of the run is the snapshot query. -/
theorem C3_delete_guard (c : Client σ) (name reason : String) (allowDataDeletion : Bool)
    (w w1 : World σ) (repo : Repository)
    (hget : Repositories.Get c name w = ((repo, none), w1)) :
    ((∃ call ∈ issued w (Repositories.Delete c name reason allowDataDeletion w).2,
        call.kind = CallKind.mutation) ↔ (allowDataDeletion = true ∨ repo.SpaceUsed = 0)) ∧
    ((allowDataDeletion = true ∨ repo.SpaceUsed = 0) →
      ApprovedWith c name w w1 (deleteCall name reason)
          (Repositories.Delete c name reason allowDataDeletion w) ∧
        (deleteCall name reason).field = "deleteSearchDomain(name: $name, deleteMessage: $reason)" ∧
        (deleteCall name reason).vars.get "name" = some (.string name) ∧
        (deleteCall name reason).vars.get "reason" = some (.string reason)) ∧
    (¬ (allowDataDeletion = true ∨ repo.SpaceUsed = 0) →
      Repositories.Delete c name reason allowDataDeletion w = (some dataDeletionNotAllowed, w1) ∧
        dataDeletionNotAllowed.Error = "repository contains data and data deletion not allowed" ∧
        issued w (Repositories.Delete c name reason allowDataDeletion w).2 = [getCall name]) := by
  have htr := trace_of_Get_eq c name w w1 _ hget
  rw [Delete_of_Get_ok c name reason allowDataDeletion w w1 repo hget]
  by_cases hc : allowDataDeletion = true ∨ repo.SpaceUsed = 0
  · have hb : (!(allowDataDeletion || decide (repo.SpaceUsed = 0))) = false := by
      rcases hc with h | h <;> simp [h]
    simp only [hb, Bool.false_eq_true, if_false]
    have hap := approvedWith_mutated c name w w1 (deleteCall name reason) htr
    refine ⟨⟨fun _ => hc, fun _ => ⟨deleteCall name reason, ?_, rfl⟩⟩, fun _ => ⟨hap, rfl, ?_, ?_⟩,
      fun h => absurd hc h⟩
    · rw [hap.2.2]; simp
    · simp [deleteCall, Variables.get]
    · simp [deleteCall, Variables.get]
  · have hb : (!(allowDataDeletion || decide (repo.SpaceUsed = 0))) = true := by
      simp only [not_or, Bool.not_eq_true] at hc
      simp [hc.1, hc.2]
    simp only [hb, if_true]
    have hiss : issued w w1 = [getCall name] := issued_append w w1 _ htr
    refine ⟨⟨fun h => ?_, fun h => absurd h hc⟩, fun h => absurd h hc, fun _ => ⟨trivial, rfl, hiss⟩⟩
    obtain ⟨call, hmem, hk⟩ := h
    rw [hiss, List.mem_singleton] at hmem
    subst hmem
    simp [getCall] at hk

/-- C3 at scenario D: `Delete("logs", "cleanup", false)` with 500 bytes stored is
rejected, and `Delete("empty", "cleanup", false)` with nothing stored is sent. -/
theorem C3_delete_guard_witness :
    (Repositories.Get (snapshotClient logsRepo) "logs" start
        = ((logsRepo, none), ⟨(), [getCall "logs"]⟩) ∧
      Repositories.Delete (snapshotClient logsRepo) "logs" "cleanup" false start
        = (some dataDeletionNotAllowed, ⟨(), [getCall "logs"]⟩)) ∧
    (Repositories.Get (snapshotClient emptyRepo) "empty" start
        = ((emptyRepo, none), ⟨(), [getCall "empty"]⟩) ∧
      issued start (Repositories.Delete (snapshotClient emptyRepo) "empty" "cleanup" false
        start).2 = [getCall "empty", deleteCall "empty" "cleanup"]) :=
  ⟨⟨rfl, ((C3_delete_guard (snapshotClient logsRepo) "logs" "cleanup" false start
      ⟨(), [getCall "logs"]⟩ logsRepo rfl).2.2 (by decide)).1⟩,
    ⟨rfl, ((C3_delete_guard (snapshotClient emptyRepo) "empty" "cleanup" false start
      ⟨(), [getCall "empty"]⟩ emptyRepo rfl).2.1 (Or.inr rfl)).1.2.2⟩⟩

theorem UpdateTimeBasedRetention_shape (c : Client σ) (name : String) (v : Float64)
    (allow : Bool) (w w1 : World σ) (repo : Repository)
    (hget : Repositories.Get c name w = ((repo, none), w1)) :
    Repositories.UpdateTimeBasedRetention c name v allow w = (some dataDeletionNotAllowed, w1) ∨
      ∃ call, call.kind = CallKind.mutation ∧
        Repositories.UpdateTimeBasedRetention c name v allow w = mutated c call w1 := by
  rw [UpdateTimeBasedRetention_of_Get_ok c name v allow w w1 repo hget]
  split_ifs
  · exact Or.inl rfl
  · exact Or.inr ⟨_, rfl, rfl⟩
  · exact Or.inr ⟨_, rfl, rfl⟩

theorem UpdateStorageBasedRetention_shape (c : Client σ) (name : String) (v : Float64)
    (allow : Bool) (w w1 : World σ) (repo : Repository)
    (hget : Repositories.Get c name w = ((repo, none), w1)) :
    Repositories.UpdateStorageBasedRetention c name v allow w
        = (some dataDeletionNotAllowed, w1) ∨
      ∃ call, call.kind = CallKind.mutation ∧
        Repositories.UpdateStorageBasedRetention c name v allow w = mutated c call w1 := by
  rw [UpdateStorageBasedRetention_of_Get_ok c name v allow w w1 repo hget]
  split_ifs
  · exact Or.inl rfl
  · exact Or.inr ⟨_, rfl, rfl⟩
  · exact Or.inr ⟨_, rfl, rfl⟩

theorem UpdateIngestBasedRetention_shape (c : Client σ) (name : String) (v : Float64)
    (allow : Bool) (w w1 : World σ) (repo : Repository)
    (hget : Repositories.Get c name w = ((repo, none), w1)) :
    Repositories.UpdateIngestBasedRetention c name v allow w
        = (some dataDeletionNotAllowed, w1) ∨
      ∃ call, call.kind = CallKind.mutation ∧
        Repositories.UpdateIngestBasedRetention c name v allow w = mutated c call w1 := by
  rw [UpdateIngestBasedRetention_of_Get_ok c name v allow w w1 repo hget]
  split_ifs
  · exact Or.inl rfl
  · exact Or.inr ⟨_, rfl, rfl⟩
  · exact Or.inr ⟨_, rfl, rfl⟩

theorem Delete_shape (c : Client σ) (name reason : String)
    (allow : Bool) (w w1 : World σ) (repo : Repository)
    (hget : Repositories.Get c name w = ((repo, none), w1)) :
    Repositories.Delete c name reason allow w = (some dataDeletionNotAllowed, w1) ∨
      ∃ call, call.kind = CallKind.mutation ∧
        Repositories.Delete c name reason allow w = mutated c call w1 := by
  rw [Delete_of_Get_ok c name reason allow w w1 repo hget]
  split_ifs
  · exact Or.inl rfl
  · exact Or.inr ⟨_, rfl, rfl⟩

/-- A run of a guarded operation that returned the rejection made exactly one
call, the snapshot query. -/
theorem only_query_of_rejected (c : Client σ) (name : String) (w : World σ)
    (r : Option GoError × World σ)
    (hok : ∀ repo w1, Repositories.Get c name w = ((repo, none), w1) →
      r = (some dataDeletionNotAllowed, w1) ∨
        ∃ call, call.kind = CallKind.mutation ∧ r = mutated c call w1)
    (herr : ∀ repo e w1, Repositories.Get c name w = ((repo, some e), w1) → r = (some e, w1))
    (hrej : r.1 = some dataDeletionNotAllowed) :
    issued w r.2 = [getCall name] := by
  obtain ⟨repo, w1, htr, h | ⟨e, h⟩⟩ := Get_cases c name w
  · rcases hok repo w1 h with h1 | ⟨call, _, h1⟩
    · rw [h1]; exact issued_append w w1 _ htr
    · rw [h1] at hrej
      exact absurd hrej (liftErr_ne_errorf _ _)
  · rw [herr repo e w1 h]; exact issued_append w w1 _ htr

/-- C4, as stated, fails: `Delete("logs", "cleanup", false)` on a repository that
holds 500 bytes returns the data-deletion-not-allowed rejection, and the
transport was invoked during that run: the call trace holds the snapshot query
of `Get`. -/
theorem C4_rejection_after_snapshot_query :
    (Repositories.Delete (snapshotClient logsRepo) "logs" "cleanup" false start).1
        = some dataDeletionNotAllowed ∧
      issued start (Repositories.Delete (snapshotClient logsRepo) "logs" "cleanup" false
        start).2 = [getCall "logs"] ∧
      (getCall "logs").kind = CallKind.query ∧
      issued start (Repositories.Delete (snapshotClient logsRepo) "logs" "cleanup" false
        start).2 ≠ [] := by
  refine ⟨rfl, rfl, rfl, ?_⟩
  intro h
  have h2 : issued start (Repositories.Delete (snapshotClient logsRepo) "logs" "cleanup" false
      start).2 = [getCall "logs"] := rfl
  rw [h2] at h
  exact List.cons_ne_nil _ _ h

/-- C4, amended: a guard rejection is reported before any mutation is attempted.
For every run of `Delete`, `UpdateTimeBasedRetention`, `UpdateStorageBasedRetention`
or `UpdateIngestBasedRetention` that returns the data-deletion-not-allowed
rejection, the transport was invoked exactly once during that run, for the
snapshot query of `Get`; no mutation appears in the call trace. -/
theorem C4_rejection_before_mutation (c : Client σ) (name reason : String) (v : Float64)
    (allowDataDeletion : Bool) (w : World σ) :
    ((Repositories.Delete c name reason allowDataDeletion w).1 = some dataDeletionNotAllowed →
      issued w (Repositories.Delete c name reason allowDataDeletion w).2 = [getCall name]) ∧
    ((Repositories.UpdateTimeBasedRetention c name v allowDataDeletion w).1
        = some dataDeletionNotAllowed →
      issued w (Repositories.UpdateTimeBasedRetention c name v allowDataDeletion w).2
        = [getCall name]) ∧
    ((Repositories.UpdateStorageBasedRetention c name v allowDataDeletion w).1
        = some dataDeletionNotAllowed →
      issued w (Repositories.UpdateStorageBasedRetention c name v allowDataDeletion w).2
        = [getCall name]) ∧
    ((Repositories.UpdateIngestBasedRetention c name v allowDataDeletion w).1
        = some dataDeletionNotAllowed →
      issued w (Repositories.UpdateIngestBasedRetention c name v allowDataDeletion w).2
        = [getCall name]) ∧
    (getCall name).kind = CallKind.query :=
  ⟨only_query_of_rejected c name w _
      (fun repo w1 h => Delete_shape c name reason allowDataDeletion w w1 repo h)
      (fun repo e w1 h => Delete_of_Get_err c name reason allowDataDeletion w w1 repo e h),
    only_query_of_rejected c name w _
      (fun repo w1 h => UpdateTimeBasedRetention_shape c name v allowDataDeletion w w1 repo h)
      (fun repo e w1 h =>
        UpdateTimeBasedRetention_of_Get_err c name v allowDataDeletion w w1 repo e h),
    only_query_of_rejected c name w _
      (fun repo w1 h => UpdateStorageBasedRetention_shape c name v allowDataDeletion w w1 repo h)
      (fun repo e w1 h =>
        UpdateStorageBasedRetention_of_Get_err c name v allowDataDeletion w w1 repo e h),
    only_query_of_rejected c name w _
      (fun repo w1 h => UpdateIngestBasedRetention_shape c name v allowDataDeletion w w1 repo h)
      (fun repo e w1 h =>
        UpdateIngestBasedRetention_of_Get_err c name v allowDataDeletion w w1 repo e h),
    rfl⟩

/-- C4 amended, at scenario A: the rejected narrowing of `logs` to ten days made
one call, the snapshot query. -/
theorem C4_rejection_before_mutation_witness :
    (Repositories.UpdateTimeBasedRetention (snapshotClient logsRepo) "logs" Float64.ten false
        start).1 = some dataDeletionNotAllowed ∧
      issued start (Repositories.UpdateTimeBasedRetention (snapshotClient logsRepo) "logs"
        Float64.ten false start).2 = [getCall "logs"] :=
  ⟨by decide,
    (C4_rejection_before_mutation (snapshotClient logsRepo) "logs" "" Float64.ten false
      start).2.1 (by decide)⟩

/-- C5: `UpdateUserGroup` with an empty `groups` list returns the error "at least
one group must be defined" and the transport is never invoked (the world, trace
included, is unchanged: no query, no mutation); with a non-empty list no
validation error is raised and exactly one call is made, the
updateDefaultGroupMemberships mutation carrying name, username and groups, whose
result is what the operation returns. -/
theorem C5_user_group_validation (c : Client σ) (name username : String)
    (groups : List DefaultGroupEnum) (w : World σ) :
    (groups = [] →
      Repositories.UpdateUserGroup c name username groups w = (some atLeastOneGroup, w) ∧
        atLeastOneGroup.Error = "at least one group must be defined" ∧
        issued w (Repositories.UpdateUserGroup c name username groups w).2 = []) ∧
    (groups ≠ [] →
      Repositories.UpdateUserGroup c name username groups w
          = mutated c (groupCall name username groups) w ∧
        (Repositories.UpdateUserGroup c name username groups w).1 ≠ some atLeastOneGroup ∧
        issued w (Repositories.UpdateUserGroup c name username groups w).2
          = [groupCall name username groups] ∧
        (groupCall name username groups).kind = CallKind.mutation ∧
        (groupCall name username groups).vars
          = [("name", .string name), ("username", .string username),
              ("groups", .groups groups)]) := by
  constructor
  · intro h
    subst h
    refine ⟨rfl, rfl, ?_⟩
    simp [Repositories.UpdateUserGroup, issued]
  · intro h
    have hlen : ¬ groups.length = 0 := by
      intro h0
      exact h (List.length_eq_zero.mp h0)
    have hrun : Repositories.UpdateUserGroup c name username groups w
        = mutated c (groupCall name username groups) w := by
      unfold Repositories.UpdateUserGroup
      simp only [hlen, if_false, mutated, groupCall, Client.Mutate]
    rw [hrun]
    refine ⟨rfl, liftErr_ne_errorf _ _, ?_, rfl, rfl⟩
    apply issued_append
    simp [mutated]

/-- C5 on concrete calls: no group gives the validation error and an empty
trace; one group gives one mutation. -/
theorem C5_user_group_validation_witness :
    Repositories.UpdateUserGroup (snapshotClient logsRepo) "logs" "anna" [] start
        = (some atLeastOneGroup, start) ∧
      issued start (Repositories.UpdateUserGroup (snapshotClient logsRepo) "logs" "anna"
        [DefaultGroupEnumAdmin] start).2 = [groupCall "logs" "anna" [DefaultGroupEnumAdmin]] :=
  ⟨((C5_user_group_validation (snapshotClient logsRepo) "logs" "anna" [] start).1 rfl).1,
    ((C5_user_group_validation (snapshotClient logsRepo) "logs" "anna" [DefaultGroupEnumAdmin]
      start).2 (by simp)).2.2.1⟩

theorem propagation_of_shape (c : Client σ) (name : String) (w : World σ)
    (r : Option GoError × World σ)
    (hok : ∀ repo w1, Repositories.Get c name w = ((repo, none), w1) →
      r = (some dataDeletionNotAllowed, w1) ∨
        ∃ call, call.kind = CallKind.mutation ∧ r = mutated c call w1)
    (herr : ∀ repo e w1, Repositories.Get c name w = ((repo, some e), w1) → r = (some e, w1)) :
    Propagates c name w r := by
  unfold Propagates
  constructor
  · intro repo e w1 h
    rw [herr repo e w1 h]
    exact ⟨rfl, issued_append w w1 _ (trace_of_Get_eq c name w w1 _ h)⟩
  · intro repo w1 h
    have htr := trace_of_Get_eq c name w w1 _ h
    rcases hok repo w1 h with h1 | ⟨call, hk, h1⟩
    · rw [h1]
      exact Or.inl ⟨rfl, issued_append w w1 _ htr⟩
    · rw [h1]
      refine Or.inr ⟨call, hk, issued_mutated c call _ w w1 htr, ?_, ?_⟩
      · intro te hte
        simp [mutated, liftErr, hte]
      · simp [mutated, liftErr]

/-- C7: for each of `Delete`, `UpdateTimeBasedRetention`,
`UpdateStorageBasedRetention` and `UpdateIngestBasedRetention`, every proposed
value and every `allowDataDeletion` flag: if `Get` fails the operation returns
exactly the error `Get` returned and issues no mutation; if the snapshot read
succeeds and the guard does not reject, the one mutation is issued and its error
is returned unchanged, `nil` only when the mutation succeeded. -/
theorem C7_errors_propagate (c : Client σ) (name reason : String) (v : Float64)
    (allowDataDeletion : Bool) (w : World σ) :
    Propagates c name w (Repositories.Delete c name reason allowDataDeletion w) ∧
    Propagates c name w (Repositories.UpdateTimeBasedRetention c name v allowDataDeletion w) ∧
    Propagates c name w (Repositories.UpdateStorageBasedRetention c name v allowDataDeletion w) ∧
    Propagates c name w (Repositories.UpdateIngestBasedRetention c name v allowDataDeletion w) :=
  ⟨propagation_of_shape c name w _
      (fun repo w1 h => Delete_shape c name reason allowDataDeletion w w1 repo h)
      (fun repo e w1 h => Delete_of_Get_err c name reason allowDataDeletion w w1 repo e h),
    propagation_of_shape c name w _
      (fun repo w1 h => UpdateTimeBasedRetention_shape c name v allowDataDeletion w w1 repo h)
      (fun repo e w1 h =>
        UpdateTimeBasedRetention_of_Get_err c name v allowDataDeletion w w1 repo e h),
    propagation_of_shape c name w _
      (fun repo w1 h => UpdateStorageBasedRetention_shape c name v allowDataDeletion w w1 repo h)
      (fun repo e w1 h =>
        UpdateStorageBasedRetention_of_Get_err c name v allowDataDeletion w w1 repo e h),
    propagation_of_shape c name w _
      (fun repo w1 h => UpdateIngestBasedRetention_shape c name v allowDataDeletion w w1 repo h)
      (fun repo e w1 h =>
        UpdateIngestBasedRetention_of_Get_err c name v allowDataDeletion w w1 repo e h)⟩

/-- C7 on concrete transports. When every call fails with "boom", `Delete` with
the override set returns the error of `Get` and makes no call after the query.
When the snapshot of the empty repository is read but mutations fail with
"denied", `Delete` returns that transport error itself. -/
theorem C7_errors_propagate_witness :
    (Repositories.Get (failingClient "boom") "logs" start
        = ((⟨"", "", "", Float64.zero, Float64.zero, Float64.zero, 0⟩,
            some (withHint ⟨"boom"⟩)), ⟨(), [getCall "logs"]⟩) ∧
      (Repositories.Delete (failingClient "boom") "logs" "cleanup" true start).1
        = some (withHint ⟨"boom"⟩) ∧
      issued start (Repositories.Delete (failingClient "boom") "logs" "cleanup" true start).2
        = [getCall "logs"]) ∧
    (Repositories.Get (readOnlyClient emptyRepo "denied") "empty" start
        = ((emptyRepo, none), ⟨(), [getCall "empty"]⟩) ∧
      ((Repositories.Delete (readOnlyClient emptyRepo "denied") "empty" "cleanup" false start).1
          = some dataDeletionNotAllowed ∧
        issued start
          (Repositories.Delete (readOnlyClient emptyRepo "denied") "empty" "cleanup" false
            start).2 = [getCall "empty"] ∨
      ∃ call, call.kind = CallKind.mutation ∧
        issued start
          (Repositories.Delete (readOnlyClient emptyRepo "denied") "empty" "cleanup" false
            start).2 = [getCall "empty", call] ∧
        (∀ te, ((readOnlyClient emptyRepo "denied").mutate call ()).1 = some te →
          (Repositories.Delete (readOnlyClient emptyRepo "denied") "empty" "cleanup" false
            start).1 = some (GoError.transport te)) ∧
        ((Repositories.Delete (readOnlyClient emptyRepo "denied") "empty" "cleanup" false
            start).1 = none ↔
          ((readOnlyClient emptyRepo "denied").mutate call ()).1 = none))) :=
  ⟨⟨rfl,
    (C7_errors_propagate (failingClient "boom") "logs" "cleanup" Float64.zero true start).1.1
      _ _ _ rfl⟩,
    ⟨rfl,
    (C7_errors_propagate (readOnlyClient emptyRepo "denied") "empty" "cleanup" Float64.zero
      false start).1.2 _ _ rfl⟩⟩

theorem outcome_rejected (key name : String) (w w1 : World σ) (e : GoError)
    (htr : w1.trace = w.trace ++ [getCall name]) :
    outcome key w (some e, w1) = some (Outcome.rejected e.Error) := by
  simp [outcome, issued_append w w1 _ htr, getCall]

theorem outcome_mutated (c : Client σ) (key name : String) (w w1 : World σ) (call : Call)
    (hk : call.kind = CallKind.mutation)
    (htr : w1.trace = w.trace ++ [getCall name]) :
    outcome key w (mutated c call w1) = some (Outcome.approved (call.vars.get key)) := by
  simp [outcome, issued_mutated c call _ w w1 htr, getCall, hk]

/-- The decision of a retention update after a successful snapshot read, as a
function of the compared values only. -/
theorem outcome_of_guard (key name : String) (w w1 : World σ) (c : Client σ)
    (mk : Value → Call) (hk : ∀ p, (mk p).kind = CallKind.mutation)
    (hv : ∀ p, (mk p).vars.get key = some p)
    (htr : w1.trace = w.trace ++ [getCall name]) (b1 b2 : Bool) (v : Float64) :
    outcome key w
        (if b1 = true then
          if b2 = true then (some dataDeletionNotAllowed, w1)
          else mutated c (mk (.float v)) w1
        else mutated c (mk .nilFloat) w1)
      = some (if b1 = true then
          if b2 = true then Outcome.rejected dataDeletionNotAllowed.Error
          else Outcome.approved (some (.float v))
        else Outcome.approved (some .nilFloat)) := by
  cases b1 <;> cases b2 <;>
    simp [outcome_rejected key name w w1 _ htr, outcome_mutated c key name w w1 _ (hk _) htr, hv]

/-- C6: the storage-size and ingest-size updates decide as the time-based update
does. Take a snapshot `repo` read by `UpdateStorageBasedRetention` (resp.
`UpdateIngestBasedRetention`) and a snapshot `repoT` read by
`UpdateTimeBasedRetention` with the same `SpaceUsed` and with `RetentionDays`
equal to `repo.StorageRetentionSizeGB` (resp. `repo.IngestRetentionSizeGB`). For
the same proposed value `v` and flag, the two runs have the same observed
outcome: both rejected with the same error text, or both approved with the same
retention parameter (the nil marker, or the explicit `v`), the parameter being
read under the name `storageInGB` (resp. `ingestInGB`) instead of
`retentionInDays`. The outcome is one of: rejected with "repository contains data
and data deletion not allowed", approved with nil, approved with explicit `v`. -/
theorem C6_three_dimensions_agree {τ : Type} (c : Client σ) (cT : Client τ)
    (name nameT : String) (v : Float64) (allowDataDeletion : Bool)
    (w w1 : World σ) (wT wT1 : World τ) (repo repoT : Repository)
    (hget : Repositories.Get c name w = ((repo, none), w1))
    (hgetT : Repositories.Get cT nameT wT = ((repoT, none), wT1))
    (hused : repoT.SpaceUsed = repo.SpaceUsed) :
    (repoT.RetentionDays = repo.StorageRetentionSizeGB →
      outcome "storageInGB" w
          (Repositories.UpdateStorageBasedRetention c name v allowDataDeletion w)
        = outcome "retentionInDays" wT
          (Repositories.UpdateTimeBasedRetention cT nameT v allowDataDeletion wT)) ∧
    (repoT.RetentionDays = repo.IngestRetentionSizeGB →
      outcome "ingestInGB" w
          (Repositories.UpdateIngestBasedRetention c name v allowDataDeletion w)
        = outcome "retentionInDays" wT
          (Repositories.UpdateTimeBasedRetention cT nameT v allowDataDeletion wT)) ∧
    (outcome "retentionInDays" wT
          (Repositories.UpdateTimeBasedRetention cT nameT v allowDataDeletion wT)
        = some (Outcome.rejected "repository contains data and data deletion not allowed") ∨
      outcome "retentionInDays" wT
          (Repositories.UpdateTimeBasedRetention cT nameT v allowDataDeletion wT)
        = some (Outcome.approved (some .nilFloat)) ∨
      outcome "retentionInDays" wT
          (Repositories.UpdateTimeBasedRetention cT nameT v allowDataDeletion wT)
        = some (Outcome.approved (some (.float v)))) := by
  have htr := trace_of_Get_eq c name w w1 _ hget
  have htrT := trace_of_Get_eq cT nameT wT wT1 _ hgetT
  have hT := UpdateTimeBasedRetention_of_Get_ok cT nameT v allowDataDeletion wT wT1 repoT hgetT
  have hS := UpdateStorageBasedRetention_of_Get_ok c name v allowDataDeletion w w1 repo hget
  have hI := UpdateIngestBasedRetention_of_Get_ok c name v allowDataDeletion w w1 repo hget
  have oT := outcome_of_guard "retentionInDays" nameT wT wT1 cT (timeCall nameT)
    (fun _ => rfl) (fun p => by simp [timeCall, Variables.get]) htrT
  have oS := outcome_of_guard "storageInGB" name w w1 c (storageCall name)
    (fun _ => rfl) (fun p => by simp [storageCall, Variables.get]) htr
  have oI := outcome_of_guard "ingestInGB" name w w1 c (ingestCall name)
    (fun _ => rfl) (fun p => by simp [ingestCall, Variables.get]) htr
  rw [hT, hS, hI, oT, oS, oI, hused]
  refine ⟨fun h => by rw [h], fun h => by rw [h], ?_⟩
  split_ifs
  · exact Or.inl rfl
  · exact Or.inr (Or.inr rfl)
  · exact Or.inr (Or.inl rfl)

/-- C6 on concrete runs: narrowing the storage limit of `sized` from thirty to ten
GB and narrowing the retention of `logs` from thirty to ten days, both holding
500 bytes and without the override, have the same outcome. -/
theorem C6_three_dimensions_agree_witness :
    Repositories.Get (snapshotClient sizedRepo) "sized" start
        = ((sizedRepo, none), ⟨(), [getCall "sized"]⟩) ∧
      Repositories.Get (snapshotClient logsRepo) "logs" start
        = ((logsRepo, none), ⟨(), [getCall "logs"]⟩) ∧
      logsRepo.SpaceUsed = sizedRepo.SpaceUsed ∧
      logsRepo.RetentionDays = sizedRepo.StorageRetentionSizeGB ∧
      outcome "storageInGB" start
          (Repositories.UpdateStorageBasedRetention (snapshotClient sizedRepo) "sized"
            Float64.ten false start)
        = outcome "retentionInDays" start
          (Repositories.UpdateTimeBasedRetention (snapshotClient logsRepo) "logs"
            Float64.ten false start) :=
  ⟨rfl, rfl, rfl, rfl,
    (C6_three_dimensions_agree (snapshotClient sizedRepo) (snapshotClient logsRepo)
      "sized" "logs" Float64.ten false start ⟨(), [getCall "sized"]⟩ start
      ⟨(), [getCall "logs"]⟩ sizedRepo logsRepo rfl rfl rfl).1 rfl⟩

theorem setDescription_idem (name text : String) (s : List Repository) :
    setDescription name text (setDescription name text s) = setDescription name text s := by
  unfold setDescription
  rw [List.map_map]
  apply List.map_congr_left
  intro r _
  by_cases h : r.Name = name <;> simp [h]

theorem retentionView_setDescription (name text : String) (s : List Repository) :
    retentionView (setDescription name text s) = retentionView s := by
  unfold retentionView setDescription
  rw [List.map_map]
  apply List.map_congr_left
  intro r _
  by_cases h : r.Name = name <;> simp [h]

theorem any_name_setDescription (name text : String) (s : List Repository) :
    (setDescription name text s).any (fun r => decide (r.Name = name))
      = s.any (fun r => decide (r.Name = name)) := by
  unfold setDescription
  rw [List.any_map]
  congr 1
  funext r
  by_cases h : r.Name = name <;> simp [h]

theorem descriptionRemote_mutate (name text : String) (s : List Repository) :
    descriptionRemote.mutate (descriptionCall name text) s
      = if s.any (fun r => decide (r.Name = name)) then (none, setDescription name text s)
        else (some ⟨"not found"⟩, s) := by
  simp [descriptionRemote, descriptionCall, Variables.get]

/-- C8: `UpdateDescription` is an ungated pass-through. For every transport, name
and text it makes exactly one call, the updateDescriptionForSearchDomain
mutation whose variables are exactly `name` and `description`, with no snapshot
query before it, and returns that mutation's result. A second call with the
same name and text sends the identical request. Over a remote in which this
mutation sets the description, the state after the second call equals the state
after the first, and the retention fields and `SpaceUsed` of every repository are
what they were before the first call. -/
theorem C8_update_description_passthrough (c : Client σ) (name text : String) (w : World σ)
    (s : List Repository) (tr : List Call) :
    (Repositories.UpdateDescription c name text w = mutated c (descriptionCall name text) w ∧
      issued w (Repositories.UpdateDescription c name text w).2 = [descriptionCall name text] ∧
      (descriptionCall name text).kind = CallKind.mutation ∧
      (descriptionCall name text).field
        = "updateDescriptionForSearchDomain(name: $name, newDescription: $description)" ∧
      (descriptionCall name text).vars
        = [("name", .string name), ("description", .string text)]) ∧
    issued (Repositories.UpdateDescription c name text w).2
        (Repositories.UpdateDescription c name text
          (Repositories.UpdateDescription c name text w).2).2
      = [descriptionCall name text] ∧
    (Repositories.UpdateDescription descriptionRemote name text
          (Repositories.UpdateDescription descriptionRemote name text ⟨s, tr⟩).2).2.remote
        = (Repositories.UpdateDescription descriptionRemote name text ⟨s, tr⟩).2.remote ∧
      retentionView (Repositories.UpdateDescription descriptionRemote name text
          (Repositories.UpdateDescription descriptionRemote name text ⟨s, tr⟩).2).2.remote
        = retentionView s ∧
      retentionView (Repositories.UpdateDescription descriptionRemote name text ⟨s, tr⟩).2.remote
        = retentionView s := by
  have hrun : ∀ {τ : Type} (d : Client τ) (x : World τ),
      Repositories.UpdateDescription d name text x = mutated d (descriptionCall name text) x := by
    intro τ d x
    rfl
  have hiss : ∀ {τ : Type} (d : Client τ) (x : World τ),
      issued x (mutated d (descriptionCall name text) x).2 = [descriptionCall name text] := by
    intro τ d x
    apply issued_append
    simp [mutated]
  refine ⟨⟨hrun c w, ?_, rfl, rfl, rfl⟩, ?_, ?_⟩
  · rw [hrun]; exact hiss c w
  · rw [hrun c w, hrun]; exact hiss c _
  · rw [hrun descriptionRemote ⟨s, tr⟩, hrun]
    simp only [mutated, descriptionRemote_mutate]
    by_cases h : s.any (fun r => decide (r.Name = name)) = true
    · simp only [h, if_true, any_name_setDescription, setDescription_idem,
        retentionView_setDescription, and_self]
    · simp only [Bool.not_eq_true] at h
      simp [h]

/-- C9: `Create` (resp. `Get`) makes a single transport call, a mutation (resp. a
query), and returns a non-nil error if and only if that call fails; the message
of the returned error is then the text of the transport error followed by
". Does the repo already exist?". `List`, `UpdateDescription` and
`UpdateUserGroup` (given at least one group) return the error of their transport
call itself, unmodified, and `nil` when it returned `nil`. -/
theorem C9_transport_errors (c : Client σ) (name text username : String)
    (groups : List DefaultGroupEnum) (w : World σ) (hgroups : groups ≠ []) :
    (issued w (Repositories.Create c name w).2 = [createCall name] ∧
      ((Repositories.Create c name w).1 ≠ none ↔
        (c.mutate (createCall name) w.remote).1 ≠ none) ∧
      ∀ te, (c.mutate (createCall name) w.remote).1 = some te →
        ∃ e, (Repositories.Create c name w).1 = some e ∧
          e.Error = te.text ++ ". Does the repo already exist?") ∧
    (issued w (Repositories.Get c name w).2 = [getCall name] ∧
      ((Repositories.Get c name w).1.2 ≠ none ↔
        (c.query (getCall name) w.remote).1.2 ≠ none) ∧
      ∀ te, (c.query (getCall name) w.remote).1.2 = some te →
        ∃ e, (Repositories.Get c name w).1.2 = some e ∧
          e.Error = te.text ++ ". Does the repo already exist?") ∧
    ((Repositories.ListRepositories c w).1.2
        = Option.map GoError.transport (c.query listCall w.remote).1.2) ∧
    ((Repositories.UpdateDescription c name text w).1
        = Option.map GoError.transport (c.mutate (descriptionCall name text) w.remote).1) ∧
    ((Repositories.UpdateUserGroup c name username groups w).1
        = Option.map GoError.transport
          (c.mutate (groupCall name username groups) w.remote).1) := by
  refine ⟨⟨?_, ?_, ?_⟩, ⟨?_, ?_, ?_⟩, rfl, rfl, ?_⟩
  · apply issued_append
    unfold Repositories.Create Client.Mutate createCall
    dsimp only
    split <;> rfl
  · unfold Repositories.Create Client.Mutate createCall
    dsimp only
    split <;> rename_i h <;> simp [h]
  · intro te hte
    unfold Repositories.Create Client.Mutate
    unfold createCall at hte
    dsimp only
    rw [hte]
    exact ⟨_, rfl, rfl⟩
  · exact issued_append w _ _ (Get_trace c name w)
  · unfold Repositories.Get Client.Query getCall
    dsimp only
    split <;> rename_i h <;> simp [h]
  · intro te hte
    unfold Repositories.Get Client.Query
    unfold getCall at hte
    dsimp only
    rw [hte]
    exact ⟨_, rfl, rfl⟩
  · have hlen : ¬ groups.length = 0 := fun h0 => hgroups (List.length_eq_zero.mp h0)
    unfold Repositories.UpdateUserGroup
    simp only [hlen, if_false, Client.Mutate, groupCall, liftErr]

/-- C9 on a transport whose every call fails with "boom": `Create` returns the
hinted text, `UpdateUserGroup` returns the transport error itself. -/
theorem C9_transport_errors_witness :
    [DefaultGroupEnumMember] ≠ [] ∧
      (∃ e, (Repositories.Create (failingClient "boom") "logs" start).1 = some e ∧
        e.Error = "boom. Does the repo already exist?") ∧
      (Repositories.UpdateUserGroup (failingClient "boom") "logs" "anna"
        [DefaultGroupEnumMember] start).1 = some (GoError.transport ⟨"boom"⟩) :=
  ⟨by simp,
    (C9_transport_errors (failingClient "boom") "logs" "" "anna" [DefaultGroupEnumMember]
      start (by simp)).1.2.2 ⟨"boom"⟩ rfl,
    (C9_transport_errors (failingClient "boom") "logs" "" "anna" [DefaultGroupEnumMember]
      start (by simp)).2.2.2.2⟩

theorem lower_recase_aux (table : Char → Char) (up : Nat → Bool) (l : List Char)
    (hl : ∀ c ∈ l, (c.toUpper.toNat ≤ 127 ∧ c.toUpper.toLower = c.toLower) ∧
      (c.toLower.toNat ≤ 127 ∧ c.toLower.toLower = c.toLower)) (k : Nat) :
    ((l.enumFrom k).map (fun p => if up p.1 then p.2.toUpper else p.2.toLower)).map
        (unicodeToLower table) = l.map Char.toLower := by
  induction l generalizing k with
  | nil => rfl
  | cons c rest ih =>
    have hc := hl c (List.mem_cons_self _ _)
    have hrest := ih (fun x hx => hl x (List.mem_cons_of_mem _ hx)) (k + 1)
    simp only [List.enumFrom_cons, List.map_cons, hrest, List.cons.injEq, and_true]
    cases up k
    · simp [unicodeToLower, hc.2.1, hc.2.2]
    · simp [unicodeToLower, hc.1.1, hc.1.2]

theorem stringsToLower_recase (table : Char → Char) (up : Nat → Bool) (s : String)
    (hl : ∀ c ∈ s.data, (c.toUpper.toNat ≤ 127 ∧ c.toUpper.toLower = c.toLower) ∧
      (c.toLower.toNat ≤ 127 ∧ c.toLower.toLower = c.toLower)) :
    stringsToLower table (recase up s) = String.mk (s.data.map Char.toLower) := by
  unfold stringsToLower recase List.enum
  rw [lower_recase_aux table up s.data hl 0]

/-- C10: `ParseString` returns true if and only if the lower-cased `s` is
"member", "admin" or "eliminator", and then the receiver becomes `Member`, `Admin`
or `Eliminator` respectively; when it returns false the receiver is unchanged;
and for each of the three constants, `String()` written in any letter case
parses to that constant. -/
theorem C10_parse_string (table : Char → Char) (e : DefaultGroupEnum) (s : String)
    (up : Nat → Bool) :
    ((DefaultGroupEnum.ParseString table e s).2 = true ↔
      (stringsToLower table s = "member" ∨ stringsToLower table s = "admin" ∨
        stringsToLower table s = "eliminator")) ∧
    (stringsToLower table s = "member" →
      DefaultGroupEnum.ParseString table e s = (DefaultGroupEnumMember, true)) ∧
    (stringsToLower table s = "admin" →
      DefaultGroupEnum.ParseString table e s = (DefaultGroupEnumAdmin, true)) ∧
    (stringsToLower table s = "eliminator" →
      DefaultGroupEnum.ParseString table e s = (DefaultGroupEnumEliminator, true)) ∧
    ((DefaultGroupEnum.ParseString table e s).2 = false →
      (DefaultGroupEnum.ParseString table e s).1 = e) ∧
    DefaultGroupEnum.ParseString table e (recase up DefaultGroupEnumMember.StringOf)
      = (DefaultGroupEnumMember, true) ∧
    DefaultGroupEnum.ParseString table e (recase up DefaultGroupEnumAdmin.StringOf)
      = (DefaultGroupEnumAdmin, true) ∧
    DefaultGroupEnum.ParseString table e (recase up DefaultGroupEnumEliminator.StringOf)
      = (DefaultGroupEnumEliminator, true) := by
  have hma : ("member" : String) ≠ "admin" := by decide
  have hme : ("member" : String) ≠ "eliminator" := by decide
  have hae : ("admin" : String) ≠ "eliminator" := by decide
  have h1 : stringsToLower table (recase up "Member") = "member" := by
    rw [stringsToLower_recase table up "Member" (by decide)]
    decide
  have h2 : stringsToLower table (recase up "Admin") = "admin" := by
    rw [stringsToLower_recase table up "Admin" (by decide)]
    decide
  have h3 : stringsToLower table (recase up "Eliminator") = "eliminator" := by
    rw [stringsToLower_recase table up "Eliminator" (by decide)]
    decide
  refine ⟨?_, ?_, ?_, ?_, ?_, ?_, ?_, ?_⟩
  · unfold DefaultGroupEnum.ParseString
    split_ifs with a b d
    · simp [a]
    · simp [b]
    · simp [d]
    · simp [a, b, d]
  · intro h
    simp [DefaultGroupEnum.ParseString, h]
  · intro h
    simp [DefaultGroupEnum.ParseString, h, hma.symm]
  · intro h
    simp [DefaultGroupEnum.ParseString, h, hme.symm, hae.symm]
  · unfold DefaultGroupEnum.ParseString
    split_ifs <;> simp
  · simp [DefaultGroupEnum.ParseString, DefaultGroupEnumMember, DefaultGroupEnum.StringOf, h1]
  · simp [DefaultGroupEnum.ParseString, DefaultGroupEnumAdmin, DefaultGroupEnum.StringOf, h2,
      hma.symm]
  · simp [DefaultGroupEnum.ParseString, DefaultGroupEnumEliminator, DefaultGroupEnum.StringOf,
      h3, hme.symm, hae.symm]

/-- C10 on concrete inputs: "ADMIN" parses to `Admin`; "root" does not parse and
leaves the receiver `Member` as it was. -/
theorem C10_parse_string_witness :
    stringsToLower dottedTable "ADMIN" = "admin" ∧
      DefaultGroupEnum.ParseString dottedTable DefaultGroupEnumMember "ADMIN"
        = (DefaultGroupEnumAdmin, true) ∧
      (DefaultGroupEnum.ParseString dottedTable DefaultGroupEnumMember "root").2 = false ∧
      (DefaultGroupEnum.ParseString dottedTable DefaultGroupEnumMember "root").1
        = DefaultGroupEnumMember :=
  ⟨by decide,
    (C10_parse_string dottedTable DefaultGroupEnumMember "ADMIN" (fun _ => true)).2.2.1
      (by decide),
    by decide,
    (C10_parse_string dottedTable DefaultGroupEnumMember "root" (fun _ => true)).2.2.2.2.1
      (by decide)⟩

end Humio
